import Mathlib

/-!
Verification development for the k8s-access-monitor repository.

The Python sources (src/main.py, src/metrics_exporter.py, src/sidecar.py)
are shallowly embedded below.  Python dicts are modelled as association
lists in insertion order (`lookupA` finds the first entry with a key,
`setA` updates the first matching entry in place or appends a new entry at
the end, exactly like CPython dict assignment).  Fallible API calls are
modelled as `Except String` values; `try/except` blocks become matches on
those values.  Counters thread through the fetch wrappers to make the
number of RBAC list calls observable.
-/

/-- Generic dict lookup: first entry whose key equals `k` (Python `d[k]` / `d.get(k)`). -/
def lookupA {α : Type} : List (String × α) → String → Option α
  | [], _ => none
  | p :: rest, k => if p.1 = k then some p.2 else lookupA rest k

/-- Generic dict assignment `d[k] = v`: update the first entry with key `k`
in place, or append a new entry at the end (CPython insertion order). -/
def setA {α : Type} : List (String × α) → String → α → List (String × α)
  | [], k, v => [(k, v)]
  | p :: rest, k, v => if p.1 = k then (k, v) :: rest else p :: setA rest k v

/-- A subject of a (Cluster)RoleBinding: `{kind, name}`. -/
structure Subject where
  kind : String
  name : String
deriving DecidableEq

/-- The `role_ref` of a binding: `{kind, name}`. -/
structure RoleRef where
  kind : String
  name : String
deriving DecidableEq

/-- One RBAC policy rule; `verbs`/`resources` model `rule.get('verbs', [])`
and `rule.get('resources', [])` (absent keys degrade to `[]`),
`api_groups` models `rule.get('api_groups', [''])` (read but unused). -/
structure PolicyRule where
  verbs : List String
  resources : List String
  api_groups : List String
deriving DecidableEq

/-- A Role / ClusterRole body.  `rules = none` models a role dict without a
`'rules'` key (main.py line 143 guards with `if 'rules' in role_data`). -/
structure Role where
  rules : Option (List PolicyRule)
deriving DecidableEq

/-- A ClusterRoleBinding or RoleBinding.  `ns` models
`binding.get('metadata', {}).get('namespace', ...)`; `none` means the
metadata carries no namespace. -/
structure Binding where
  subjects : List Subject
  roleRef : RoleRef
  ns : Option String
deriving DecidableEq

/-- The normalized resource → verb-list mapping built per role
(`permissions` dict in the sources). -/
abbrev PermMap := List (String × List String)

/-- Roster data used by the matchers: username → groups
(the `groups` entry of `users_data[username]`). -/
abbrev Users := List (String × List String)

/-- One resolved access grant (main.py lines 180-184 / 199-203):
`{'namespace': ..., 'resources': ..., 'is_cluster': ...}`. -/
structure AccessGrant where
  ns : String
  resources : PermMap
  is_cluster : Bool
deriving DecidableEq

/-- One output record of `collect_and_log_accesses` (main.py lines 275-280). -/
structure AccessLogEntry where
  username : String
  groups : List String
  accesses : List AccessGrant
  timestamp : String
deriving DecidableEq

/-! ## Permission extractor (main.py `_extract_permissions_from_role`,
lines 139-156; metrics_exporter.py `_extract_permissions`, lines 106-123,
which is the same loop over attribute-shaped rules). -/

/-- Inner loop body: `if verb not in permissions[resource]:
permissions[resource].append(verb)`. -/
def addVerbToResource (permissions : PermMap) (resource verb : String) : PermMap :=
  let cur := (lookupA permissions resource).getD []
  if verb ∈ cur then permissions else setA permissions resource (cur ++ [verb])

/-- Per-resource body: `if resource not in permissions:
permissions[resource] = []` followed by the verb loop. -/
def addRuleResource (verbs : List String) (permissions : PermMap) (resource : String) : PermMap :=
  let permissions :=
    if (lookupA permissions resource).isSome then permissions else setA permissions resource []
  verbs.foldl (fun permissions verb => addVerbToResource permissions resource verb) permissions

/-- Per-rule body: `for resource in resources: ...`. -/
def addRule (permissions : PermMap) (rule : PolicyRule) : PermMap :=
  rule.resources.foldl (addRuleResource rule.verbs) permissions

/-- `_extract_permissions_from_role(role_data)`: fold the rule loop over an
initially empty dict; a missing `'rules'` key yields the empty mapping. -/
def extractPermissionsFromRole (role : Role) : PermMap :=
  match role.rules with
  | none => []
  | some rules => rules.foldl addRule []

/-! Specification-side vocabulary for the extractor: "union of the verbs of
every rule mentioning the resource, duplicates removed, first-appearance
order". -/

/-- Append `v` unless already present (first-appearance dedup step). -/
def insertNew (vs : List String) (v : String) : List String :=
  if v ∈ vs then vs else vs ++ [v]

/-- Insert every element of `l` (in order) into `vs`, skipping duplicates. -/
def insertAll (vs l : List String) : List String :=
  l.foldl insertNew vs

/-- First-appearance-order deduplication of a list. -/
def dedupFirst (l : List String) : List String :=
  insertAll [] l

/-- The concatenated verbs of every rule of `rules` that mentions resource `r`. -/
def verbsMentioning (rules : List PolicyRule) (r : String) : List String :=
  (rules.filter (fun rule => decide (r ∈ rule.resources))).flatMap (fun rule => rule.verbs)

/-! ## Subject matcher (main.py `_user_matches_subjects`, lines 207-224;
metrics_exporter.py lines 125-138 is the same loop).  An absent (`None`)
subject list behaves like `[]` (`if not subjects: return False`). -/

/-- `_user_matches_subjects(username, subjects)`. -/
def userMatchesSubjects (users_data : Users) (username : String) : List Subject → Bool
  | [] => false
  | subject :: rest =>
    if subject.kind = "User" ∧ subject.name = username then true
    else if subject.kind = "Group" ∧ subject.name ∈ (lookupA users_data username).getD [] then true
    else userMatchesSubjects users_data username rest

/-! ## Access resolver (main.py `_get_user_accesses`, lines 170-205: the
resolution part after the four fetches).  The two `for binding in ...:
if ...: accesses.append(...)` loops are modelled as concatenated
`flatMap`s of the per-binding contribution (`[]` or one grant). -/

/-- The resolution body of `_get_user_accesses`, acting on an already
fetched snapshot. -/
def resolveAccesses (users_data : Users) (username : String)
    (cluster_bindings role_bindings : List Binding)
    (cluster_roles roles : List (String × Role)) : List AccessGrant :=
  (cluster_bindings.flatMap fun binding =>
    if userMatchesSubjects users_data username binding.subjects then
      match lookupA cluster_roles binding.roleRef.name with
      | some role =>
        let permissions := extractPermissionsFromRole role
        if permissions.isEmpty then [] else
          [{ ns := "", resources := permissions, is_cluster := true }]
      | none => []
    else []) ++
  (role_bindings.flatMap fun binding =>
    let ns := binding.ns.getD "default"
    if userMatchesSubjects users_data username binding.subjects then
      match lookupA roles (ns ++ "/" ++ binding.roleRef.name) with
      | some role =>
        let permissions := extractPermissionsFromRole role
        if permissions.isEmpty then [] else
          [{ ns := ns, resources := permissions, is_cluster := false }]
      | none => []
    else [])

/-! ## RBAC fetchers (main.py `_get_cluster_role_bindings` etc., lines
95-137).  The cluster API is a static environment of four list-call
results; each wrapper returns `[]`/`{}` on `ApiException` and bumps a
counter by one list call. -/

/-- The cluster control plane as seen by one run: the outcome of each of
the four RBAC list calls. -/
structure ApiEnv where
  clusterRoleBindingsResult : Except String (List Binding)
  roleBindingsResult : Except String (List Binding)
  clusterRolesResult : Except String (List (String × Role))
  rolesResult : Except String (List (String × Role))

/-- `_get_cluster_role_bindings`: list call, `[]` on failure. -/
def getClusterRoleBindings (env : ApiEnv) (calls : Nat) : List Binding × Nat :=
  (match env.clusterRoleBindingsResult with
   | .ok bindings => bindings
   | .error _ => [], calls + 1)

/-- `_get_role_bindings`: list call, `[]` on failure. -/
def getRoleBindings (env : ApiEnv) (calls : Nat) : List Binding × Nat :=
  (match env.roleBindingsResult with
   | .ok bindings => bindings
   | .error _ => [], calls + 1)

/-- `_get_cluster_roles`: list call building the name-keyed dict, `{}` on failure. -/
def getClusterRoles (env : ApiEnv) (calls : Nat) : List (String × Role) × Nat :=
  (match env.clusterRolesResult with
   | .ok roles => roles
   | .error _ => [], calls + 1)

/-- `_get_roles`: list call building the `namespace/name`-keyed dict, `{}` on failure. -/
def getRoles (env : ApiEnv) (calls : Nat) : List (String × Role) × Nat :=
  (match env.rolesResult with
   | .ok roles => roles
   | .error _ => [], calls + 1)

/-- `_get_user_accesses(username)` (main.py lines 158-205): performs the
four fetches and then resolves the user against them. -/
def getUserAccesses (env : ApiEnv) (users_data : Users) (username : String)
    (calls : Nat) : List AccessGrant × Nat :=
  let r1 := getClusterRoleBindings env calls
  let r2 := getRoleBindings env r1.2
  let r3 := getClusterRoles env r2.2
  let r4 := getRoles env r3.2
  (resolveAccesses users_data username r1.1 r2.1 r3.1 r4.1, r4.2)

/-- `collect_and_log_accesses` (main.py lines 265-296): one `AccessLogEntry`
per roster user, each obtained through `_get_user_accesses`.  The second
component counts the RBAC list calls performed during the run. -/
def collectAndLogAccesses (env : ApiEnv) (users_data : Users) (timestamp : String) :
    List AccessLogEntry × Nat :=
  users_data.foldl (fun acc user =>
    let r := getUserAccesses env users_data user.1 acc.2
    (acc.1 ++ [{ username := user.1, groups := user.2, accesses := r.1, timestamp := timestamp }],
     r.2))
    ([], 0)

/-! ## Metrics exporter (src/metrics_exporter.py) -/

/-- `_get_all_bindings` (metrics_exporter.py lines 65-82): both list calls
share one `try` block, so a failure of the cluster-role-binding call also
leaves the role-binding list at its initial `[]`. -/
def getAllBindings (crbResult rbResult : Except String (List Binding)) :
    List Binding × List Binding :=
  match crbResult with
  | .error _ => ([], [])
  | .ok cluster_bindings =>
    match rbResult with
    | .error _ => (cluster_bindings, [])
    | .ok role_bindings => (cluster_bindings, role_bindings)

/-- `_get_roles` (metrics_exporter.py lines 84-104): same shared-`try`
pattern for the two role dicts. -/
def getRolesPair (crResult rResult : Except String (List (String × Role))) :
    List (String × Role) × List (String × Role) :=
  match crResult with
  | .error _ => ([], [])
  | .ok cluster_roles =>
    match rResult with
    | .error _ => (cluster_roles, [])
    | .ok roles => (cluster_roles, roles)

/-- Per-key user dict of the metrics: username → increment count. -/
abbrev UserCounts := List (String × Nat)

/-- The metrics accumulator: `"<labels key>" → {username: count}`. -/
abbrev Metrics := List (String × UserCounts)

/-- Lines 173-176 / 205-208: `if key not in metrics: metrics[key] = {}`
then `metrics[key][username] = metrics[key].get(username, 0) + 1`. -/
def recordUser (metrics : Metrics) (key username : String) : Metrics :=
  let metrics := if (lookupA metrics key).isSome then metrics else setA metrics key []
  let users := (lookupA metrics key).getD []
  setA metrics key (setA users username ((lookupA users username).getD 0 + 1))

/-- `calculate_namespace_sensitive_metrics` (metrics_exporter.py lines
140-210), parameterized by the list-call outcomes and by the configurable
sensitive namespace / resource sets (source defaults:
`{kube-system, default}` and `{secrets, pods, nodes, namespaces}`). -/
def calculateNamespaceSensitiveMetrics (users_data : Users)
    (crbResult rbResult : Except String (List Binding))
    (crResult rResult : Except String (List (String × Role)))
    (sensitive_namespaces sensitive_resources : List String) : Metrics :=
  let b := getAllBindings crbResult rbResult
  let r := getRolesPair crResult rResult
  let metrics : Metrics :=
    b.1.foldl (fun metrics binding =>
      if binding.subjects.isEmpty then metrics
      else if binding.roleRef.kind ≠ "ClusterRole" then metrics
      else
        match lookupA r.1 binding.roleRef.name with
        | none => metrics
        | some role =>
          let permissions := extractPermissionsFromRole role
          (users_data.map Prod.fst).foldl (fun metrics username =>
            if userMatchesSubjects users_data username binding.subjects then
              sensitive_namespaces.foldl (fun metrics nsname =>
                permissions.foldl (fun metrics p =>
                  if p.1 ∈ sensitive_resources then
                    p.2.foldl (fun metrics verb =>
                      recordUser metrics (nsname ++ "_" ++ verb ++ "_" ++ p.1) username) metrics
                  else metrics) metrics) metrics
            else metrics) metrics) []
  b.2.foldl (fun metrics binding =>
    if binding.subjects.isEmpty then metrics
    else
      match binding.ns with
      | none => metrics
      | some nsname =>
        if nsname ∈ sensitive_namespaces then
          match lookupA r.2 (nsname ++ "/" ++ binding.roleRef.name) with
          | none => metrics
          | some role =>
            let permissions := extractPermissionsFromRole role
            (users_data.map Prod.fst).foldl (fun metrics username =>
              if userMatchesSubjects users_data username binding.subjects then
                permissions.foldl (fun metrics p =>
                  if p.1 ∈ sensitive_resources then
                    p.2.foldl (fun metrics verb =>
                      recordUser metrics (nsname ++ "_" ++ verb ++ "_" ++ p.1) username) metrics
                  else metrics) metrics
              else metrics) metrics
        else metrics) metrics

/-- `calculate_cluster_wide_sensitive_metrics` (metrics_exporter.py lines
212-248): cluster bindings only, keys `verb_resource`. -/
def calculateClusterWideSensitiveMetrics (users_data : Users)
    (crbResult rbResult : Except String (List Binding))
    (crResult rResult : Except String (List (String × Role)))
    (sensitive_resources : List String) : Metrics :=
  let b := getAllBindings crbResult rbResult
  let r := getRolesPair crResult rResult
  b.1.foldl (fun metrics binding =>
    if binding.subjects.isEmpty then metrics
    else if binding.roleRef.kind ≠ "ClusterRole" then metrics
    else
      match lookupA r.1 binding.roleRef.name with
      | none => metrics
      | some role =>
        let permissions := extractPermissionsFromRole role
        (users_data.map Prod.fst).foldl (fun metrics username =>
          if userMatchesSubjects users_data username binding.subjects then
            permissions.foldl (fun metrics p =>
              if p.1 ∈ sensitive_resources then
                p.2.foldl (fun metrics verb =>
                  recordUser metrics (verb ++ "_" ++ p.1) username) metrics
              else metrics) metrics
          else metrics) metrics) []

/-- Split a character list at the first occurrence of `sep`: the part
before it, and (when found) the part after it. -/
def splitFirst (sep : Char) : List Char → List Char × Option (List Char)
  | [] => ([], none)
  | c :: cs =>
    if c = sep then ([], some cs)
    else
      let r := splitFirst sep cs
      (c :: r.1, r.2)

/-- `key.split('_', 2)` used by `generate_prometheus_metrics` (line 257):
at most two splits, the remainder keeps any further underscores.  (On a
key with fewer than two underscores the source unpacking would raise; the
generated keys always have exactly two, so the padding cases are
unreachable there.) -/
def splitKey2 (key : String) : String × String × String :=
  match splitFirst '_' key.data with
  | (a, none) => (⟨a⟩, "", "")
  | (a, some rest1) =>
    match splitFirst '_' rest1 with
    | (b, none) => (⟨a⟩, ⟨b⟩, "")
    | (b, some rest2) => (⟨a⟩, ⟨b⟩, ⟨rest2⟩)

/-- `key.split('_', 1)` used by `generate_prometheus_metrics` (line 264). -/
def splitKey1 (key : String) : String × String :=
  match splitFirst '_' key.data with
  | (a, none) => (⟨a⟩, "")
  | (a, some rest) => (⟨a⟩, ⟨rest⟩)

/-- `generate_prometheus_metrics` (metrics_exporter.py lines 250-268):
one exposition line per metrics key, the count being `len(users)` of the
per-key user dict. -/
def generatePrometheusMetrics (users_data : Users)
    (crbResult rbResult : Except String (List Binding))
    (crResult rResult : Except String (List (String × Role)))
    (sensitive_namespaces sensitive_resources : List String) : List String :=
  let namespace_metrics := calculateNamespaceSensitiveMetrics users_data
    crbResult rbResult crResult rResult sensitive_namespaces sensitive_resources
  let nsLines := namespace_metrics.map (fun p =>
    let parts := splitKey2 p.1
    let user_count := p.2.length
    "k8s_namespace_sensitive_access_users_count\x7bnamespace=\"" ++ parts.1 ++
      "\",verb=\"" ++ parts.2.1 ++ "\",resource=\"" ++ parts.2.2 ++ "\"\x7d " ++
      toString user_count)
  let cluster_metrics := calculateClusterWideSensitiveMetrics users_data
    crbResult rbResult crResult rResult sensitive_resources
  let cwLines := cluster_metrics.map (fun p =>
    let parts := splitKey1 p.1
    let user_count := p.2.length
    "k8s_cluster_wide_sensitive_access_users_count\x7bresource=\"" ++ parts.2 ++
      "\",verb=\"" ++ parts.1 ++ "\"\x7d " ++ toString user_count)
  nsLines ++ cwLines

/-- Spec-side invariant for the aggregation: every per-key user dict has
pairwise-distinct usernames. -/
def InnerNodup (m : Metrics) : Prop :=
  ∀ p ∈ m, (p.2.map Prod.fst).Nodup

/-! ## Roster loaders (main.py `_load_users_data`, lines 54-77;
metrics_exporter.py `_load_users_data`, lines 32-51).  The parsed JSON
document is modelled structurally; `none` fields model missing keys whose
access raises (and is caught by the surrounding `try`). -/

/-- One value of the `internals` mapping: `user_info`.  `username = none`
models a missing `'username'` key (a `KeyError`); the other fields are
read with `.get(..., default)`. -/
structure RawUserInfo where
  username : Option String
  groups : Option (List String)
  first_name : Option String
  last_name : Option String
  source : Option String

/-- One element of the `data` array; `internals = none` models a missing
`'internals'` key. -/
structure RosterBlock where
  internals : Option (List (String × RawUserInfo))

/-- The whole roster document; `data = none` models a missing `'data'` key. -/
structure RosterDoc where
  data : Option (List RosterBlock)

/-- One entry of the users dict built by main.py (lines 64-70). -/
structure UserRecord where
  username : String
  groups : List String
  first_name : String
  last_name : String
  source : String
deriving DecidableEq

/-- The `for user_id, user_info in ... .items()` loop of main.py (lines
62-70), with the accumulated users dict as second argument: fails (raising
`KeyError`, caught by the surrounding `try`) on the first info without a
username. -/
def buildUsersMain : List (String × RawUserInfo) → List (String × UserRecord) →
    Option (List (String × UserRecord))
  | [], users => some users
  | item :: rest, users =>
    match item.2.username with
    | none => none
    | some username =>
      buildUsersMain rest (setA users username
        { username := username
          groups := item.2.groups.getD []
          first_name := item.2.first_name.getD ""
          last_name := item.2.last_name.getD ""
          source := item.2.source.getD "" })

/-- The same loop in metrics_exporter.py (lines 39-44), which keeps only
username and groups. -/
def buildUsersMetrics : List (String × RawUserInfo) → Users → Option Users
  | [], users => some users
  | item :: rest, users =>
    match item.2.username with
    | none => none
    | some username => buildUsersMetrics rest (setA users username (item.2.groups.getD []))

/-- main.py `_load_users_data`: any failure (unreadable file — modelled as
`none` — or missing structure) is caught and turns into `sys.exit(1)`,
modelled as `.error 1`. -/
def mainLoadUsersData (input : Option RosterDoc) : Except Nat (List (String × UserRecord)) :=
  match input with
  | none => .error 1
  | some doc =>
    match doc.data with
    | none => .error 1
    | some blocks =>
      match blocks.head? with
      | none => .error 1
      | some block =>
        match block.internals with
        | none => .error 1
        | some items =>
          match buildUsersMain items [] with
          | none => .error 1
          | some users => .ok users

/-- metrics_exporter.py `_load_users_data`: the same failures are caught,
logged, and turned into an *empty users dict*; the process keeps running. -/
def metricsLoadUsersData (input : Option RosterDoc) : Users :=
  match input with
  | none => []
  | some doc =>
    match doc.data with
    | none => []
    | some blocks =>
      match blocks.head? with
      | none => []
      | some block =>
        match block.internals with
        | none => []
        | some items =>
          match buildUsersMetrics items [] with
          | none => []
          | some users => users

/-- Spec-side predicate: the roster input is unreadable or structurally
malformed (any of the failure modes both loaders guard against). -/
def rosterMalformed (input : Option RosterDoc) : Bool :=
  match input with
  | none => true
  | some doc =>
    match doc.data with
    | none => true
    | some blocks =>
      match blocks.head? with
      | none => true
      | some block =>
        match block.internals with
        | none => true
        | some items => items.any (fun item => item.2.username.isNone)

/-! ## Log-shipping sidecar (src/sidecar.py) -/

/-- One flattened access of the Elasticsearch document. -/
structure FlatAccess where
  ns : String
  resource : String
  verb : String
  is_cluster : Bool
deriving DecidableEq

/-- The document built by `_transform_for_elasticsearch` (sidecar.py lines
109-135).  The `@timestamp` datetime is modelled by the normalized string
it is parsed from (`timestamp.replace('Z', '+00:00')`). -/
structure EsDoc where
  username : String
  groups : List String
  timestamp : String
  access_count : Nat
  flattened_accesses : List FlatAccess
  at_timestamp : String
deriving DecidableEq

/-- `_transform_for_elasticsearch(log_entry)`. -/
def transformForElasticsearch (log_entry : AccessLogEntry) : EsDoc :=
  let flattened_accesses := log_entry.accesses.flatMap (fun access =>
    access.resources.flatMap (fun p =>
      p.2.map (fun verb =>
        { ns := access.ns, resource := p.1, verb := verb,
          is_cluster := access.is_cluster : FlatAccess })))
  { username := log_entry.username
    groups := log_entry.groups
    timestamp := log_entry.timestamp
    access_count := log_entry.accesses.length
    flattened_accesses := flattened_accesses
    at_timestamp := log_entry.timestamp.replace "Z" "+00:00" }

/-- Observable sidecar state: the lines of the `.processed` marker file and
the documents whose indexing the sink has acknowledged. -/
structure SidecarState where
  processedFile : List String
  sent : List EsDoc
deriving DecidableEq

/-- `_process_log_entry` (sidecar.py lines 94-107) together with
`_send_to_elasticsearch` (lines 137-146): transform, then index.  `ack`
tells whether the sink acknowledged the send; a failed send is caught and
only logged. -/
def processLogEntry (ack : Bool) (log_entry : AccessLogEntry) (st : SidecarState) :
    SidecarState :=
  let es_document := transformForElasticsearch log_entry
  if ack then { st with sent := st.sent ++ [es_document] } else st

/-- The `for line_num, log_entry in new_entries:` loop of `process_logs`
(sidecar.py lines 82-91): process the entry, then unconditionally append
`f"{line_num}\n"` to the `.processed` file. -/
def processNewEntries (ackOf : Nat → Bool) (new_entries : List (Nat × AccessLogEntry))
    (st : SidecarState) : SidecarState :=
  new_entries.foldl (fun st p =>
    let st1 := processLogEntry (ackOf p.1) p.2 st
    { st1 with processedFile := st1.processedFile ++ [Nat.repr p.1] }) st

/-- Python `str.strip()`: drop leading and trailing whitespace.  (Defined
structurally on the character list so that it evaluates by kernel
reduction.) -/
def stripWS (s : String) : String :=
  ⟨((s.data.dropWhile Char.isWhitespace).reverse.dropWhile Char.isWhitespace).reverse⟩

/-- The reading phase of `process_logs` (sidecar.py lines 49-75):
`enumerate(f, 1)`, strip, skip empty lines and lines whose *content* is in
the processed set, parse JSON (modelled by the `parse` parameter; `none`
is a `JSONDecodeError`, which skips the line). -/
def readNewEntries (parse : String → Option AccessLogEntry)
    (processed_lines : List String) (logLines : List String) :
    List (Nat × AccessLogEntry) :=
  (List.enumFrom 1 logLines).filterMap (fun p =>
    let line := stripWS p.2
    if line = "" ∨ line ∈ processed_lines then none
    else
      match parse line with
      | some log_entry => some (p.1, log_entry)
      | none => none)

/-- `process_logs` (sidecar.py lines 41-92): read the processed-marker set,
collect the new entries, then process them. -/
def processLogs (parse : String → Option AccessLogEntry) (ackOf : Nat → Bool)
    (processedFileLines : List String) (logLines : List String) : SidecarState :=
  let processed_lines := processedFileLines.map (fun l => stripWS l)
  let new_entries := readNewEntries parse processed_lines logLines
  processNewEntries ackOf new_entries { processedFile := processedFileLines, sent := [] }

/-! ## Association-list lemmas -/

theorem lookupA_setA {α : Type} (m : List (String × α)) (k : String) (v : α) (k' : String) :
    lookupA (setA m k v) k' = if k' = k then some v else lookupA m k' := by
  induction m with
  | nil =>
    simp only [setA, lookupA]
    by_cases h : k' = k
    · rw [if_pos h.symm, if_pos h]
    · rw [if_neg (fun he => h he.symm), if_neg h]
  | cons p rest ih =>
    simp only [setA]
    by_cases hp : p.1 = k
    · rw [if_pos hp]
      simp only [lookupA]
      by_cases h : k' = k
      · rw [if_pos h.symm, if_pos h]
      · rw [if_neg (fun he => h he.symm), if_neg h,
          if_neg (fun he : p.1 = k' => h (he.symm.trans hp))]
    · rw [if_neg hp]
      simp only [lookupA]
      by_cases hpk : p.1 = k'
      · have h2 : ¬k' = k := fun he => hp (hpk.trans he)
        rw [if_pos hpk, if_neg h2, if_pos hpk]
      · rw [if_neg hpk, ih, if_neg hpk]

theorem lookupA_eq_none_iff {α : Type} (m : List (String × α)) (k : String) :
    lookupA m k = none ↔ k ∉ m.map Prod.fst := by
  induction m with
  | nil => simp [lookupA]
  | cons p rest ih =>
    by_cases hp : p.1 = k
    · simp [lookupA, hp]
    · have h2 : ¬k = p.1 := fun he => hp he.symm
      simp [lookupA, hp, ih, h2]

theorem lookupA_mem {α : Type} (m : List (String × α)) (k : String) (v : α)
    (h : lookupA m k = some v) : (k, v) ∈ m := by
  induction m with
  | nil => simp [lookupA] at h
  | cons p rest ih =>
    by_cases hp : p.1 = k
    · simp [lookupA, hp] at h
      have hpv : p = (k, v) := by
        cases p
        simp_all
      rw [← hpv]
      exact List.mem_cons_self p rest
    · simp [lookupA, hp] at h
      exact List.mem_cons_of_mem p (ih h)

theorem mem_setA {α : Type} (m : List (String × α)) (k : String) (v : α) (p : String × α)
    (h : p ∈ setA m k v) : p ∈ m ∨ p = (k, v) := by
  induction m with
  | nil => simp [setA] at h; simp [h]
  | cons q rest ih =>
    by_cases hq : q.1 = k
    · simp [setA, hq] at h
      rcases h with h | h
      · right; simp [h]
      · left; exact List.mem_cons_of_mem q h
    · simp [setA, hq] at h
      rcases h with h | h
      · left; simp [h]
      · rcases ih h with h' | h'
        · left; exact List.mem_cons_of_mem q h'
        · right; exact h'

theorem setA_map_fst {α : Type} (m : List (String × α)) (k : String) (v : α) :
    (setA m k v).map Prod.fst =
      if (lookupA m k).isSome then m.map Prod.fst else m.map Prod.fst ++ [k] := by
  induction m with
  | nil => simp [setA, lookupA]
  | cons p rest ih =>
    by_cases hp : p.1 = k <;> simp [setA, lookupA, hp, ih]
    by_cases hl : (lookupA rest k).isSome <;> simp [hl]

/-! ## Lemmas on first-appearance insertion -/

theorem mem_insertNew (vs : List String) (v w : String) :
    w ∈ insertNew vs v ↔ w ∈ vs ∨ w = v := by
  by_cases h : v ∈ vs <;> simp [insertNew, h]
  intro hw; rw [hw] at *; simp [h]

theorem insertNew_nodup (vs : List String) (v : String) (h : vs.Nodup) :
    (insertNew vs v).Nodup := by
  by_cases hv : v ∈ vs
  · simpa [insertNew, hv] using h
  · rw [insertNew, if_neg hv]
    refine List.Nodup.append h (List.nodup_singleton v) ?_
    intro a ha hb
    simp at hb
    subst hb
    exact hv ha

theorem mem_insertAll (l : List String) : ∀ (vs : List String) (w : String),
    w ∈ insertAll vs l ↔ w ∈ vs ∨ w ∈ l := by
  induction l with
  | nil => simp [insertAll]
  | cons v rest ih =>
    intro vs w
    show w ∈ insertAll (insertNew vs v) rest ↔ _
    rw [ih, mem_insertNew]
    simp
    tauto

theorem insertAll_nodup (l : List String) : ∀ (vs : List String), vs.Nodup →
    (insertAll vs l).Nodup := by
  induction l with
  | nil => exact fun vs h => h
  | cons v rest ih =>
    intro vs h
    exact ih (insertNew vs v) (insertNew_nodup vs v h)

theorem insertAll_append (vs a b : List String) :
    insertAll vs (a ++ b) = insertAll (insertAll vs a) b :=
  List.foldl_append ..

theorem insertAll_eq_self (l : List String) : ∀ (vs : List String),
    (∀ v ∈ l, v ∈ vs) → insertAll vs l = vs := by
  induction l with
  | nil => simp [insertAll]
  | cons v rest ih =>
    intro vs h
    have hv : v ∈ vs := h v (by simp)
    show insertAll (insertNew vs v) rest = vs
    rw [insertNew, if_pos hv]
    exact ih vs (fun w hw => h w (by simp [hw]))

theorem insertAll_idem (vs l : List String) :
    insertAll (insertAll vs l) l = insertAll vs l :=
  insertAll_eq_self l _ (fun v hv => (mem_insertAll l vs v).mpr (Or.inr hv))

/-! ## Extractor characterization lemmas -/

theorem lookupA_addVerbToResource (m : PermMap) (res v r' : String) (vs : List String)
    (h : lookupA m res = some vs) :
    lookupA (addVerbToResource m res v) r' =
      if r' = res then some (insertNew vs v) else lookupA m r' := by
  unfold addVerbToResource
  rw [h]
  by_cases hv : v ∈ vs <;> simp [insertNew, hv, lookupA_setA]
  by_cases hr : r' = res <;> simp [hr, h]

theorem lookupA_verbsFold (res r' : String) (verbs : List String) :
    ∀ (m : PermMap) (vs : List String), lookupA m res = some vs →
    lookupA (verbs.foldl (fun permissions verb => addVerbToResource permissions res verb) m) r' =
      if r' = res then some (insertAll vs verbs) else lookupA m r' := by
  induction verbs with
  | nil => intro m vs h; by_cases hr : r' = res <;> simp [insertAll, hr, h]
  | cons v rest ih =>
    intro m vs h
    have h1 : lookupA (addVerbToResource m res v) res = some (insertNew vs v) := by
      rw [lookupA_addVerbToResource m res v res vs h, if_pos rfl]
    have h2 := ih (addVerbToResource m res v) (insertNew vs v) h1
    rw [List.foldl_cons, h2]
    by_cases hr : r' = res <;> simp [insertAll, hr]
    rw [lookupA_addVerbToResource m res v r' vs h, if_neg hr]

theorem lookupA_addRuleResource (verbs : List String) (m : PermMap) (res r' : String) :
    lookupA (addRuleResource verbs m res) r' =
      if r' = res then some (insertAll ((lookupA m res).getD []) verbs)
      else lookupA m r' := by
  unfold addRuleResource
  by_cases hs : (lookupA m res).isSome
  · rcases Option.isSome_iff_exists.mp hs with ⟨vs, hvs⟩
    rw [if_pos hs, lookupA_verbsFold res r' verbs m vs hvs, hvs]
    rfl
  · have hn : lookupA m res = none := Option.not_isSome_iff_eq_none.mp hs
    have h1 : lookupA (setA m res []) res = some [] := by
      rw [lookupA_setA, if_pos rfl]
    rw [if_neg hs, lookupA_verbsFold res r' verbs _ [] h1, hn]
    by_cases hr : r' = res <;> simp [hr]
    rw [lookupA_setA, if_neg hr]

theorem lookupA_resourcesFold (verbs : List String) (r' : String) :
    ∀ (rs : List String) (m : PermMap),
    lookupA (rs.foldl (addRuleResource verbs) m) r' =
      if r' ∈ rs then some (insertAll ((lookupA m r').getD []) verbs)
      else lookupA m r' := by
  intro rs
  induction rs with
  | nil => intro m; simp
  | cons res rest ih =>
    intro m
    rw [List.foldl_cons, ih (addRuleResource verbs m res)]
    by_cases hres : r' = res
    · subst hres
      have h1 : lookupA (addRuleResource verbs m r') r' =
          some (insertAll ((lookupA m r').getD []) verbs) := by
        rw [lookupA_addRuleResource, if_pos rfl]
      by_cases hrest : r' ∈ rest <;> simp [hrest, h1, insertAll_idem]
    · have h1 : lookupA (addRuleResource verbs m res) r' = lookupA m r' := by
        rw [lookupA_addRuleResource, if_neg hres]
      by_cases hrest : r' ∈ rest <;> simp [hrest, h1, hres]

theorem lookupA_addRule (m : PermMap) (rule : PolicyRule) (r' : String) :
    lookupA (addRule m rule) r' =
      if r' ∈ rule.resources then some (insertAll ((lookupA m r').getD []) rule.verbs)
      else lookupA m r' := by
  unfold addRule
  exact lookupA_resourcesFold rule.verbs r' rule.resources m

theorem verbsMentioning_cons (rule : PolicyRule) (rest : List PolicyRule) (r : String) :
    verbsMentioning (rule :: rest) r =
      if r ∈ rule.resources then rule.verbs ++ verbsMentioning rest r
      else verbsMentioning rest r := by
  by_cases h : r ∈ rule.resources <;> simp [verbsMentioning, List.filter_cons, h]

theorem rulesFold_some (r : String) : ∀ (rules : List PolicyRule) (m : PermMap)
    (vs : List String), lookupA m r = some vs →
    lookupA (rules.foldl addRule m) r = some (insertAll vs (verbsMentioning rules r)) := by
  intro rules
  induction rules with
  | nil => intro m vs h; simp [verbsMentioning, insertAll, h]
  | cons rule rest ih =>
    intro m vs h
    rw [List.foldl_cons, verbsMentioning_cons]
    by_cases hr : r ∈ rule.resources
    · have h1 : lookupA (addRule m rule) r = some (insertAll vs rule.verbs) := by
        rw [lookupA_addRule, if_pos hr, h]
        rfl
      rw [ih _ _ h1, if_pos hr, insertAll_append]
    · have h1 : lookupA (addRule m rule) r = some vs := by
        rw [lookupA_addRule, if_neg hr, h]
      rw [ih _ _ h1, if_neg hr]

theorem rulesFold_none (r : String) : ∀ (rules : List PolicyRule) (m : PermMap),
    lookupA m r = none →
    lookupA (rules.foldl addRule m) r =
      if rules.any (fun rule => decide (r ∈ rule.resources)) then
        some (dedupFirst (verbsMentioning rules r))
      else none := by
  intro rules
  induction rules with
  | nil => intro m h; simpa using h
  | cons rule rest ih =>
    intro m h
    rw [List.foldl_cons, verbsMentioning_cons]
    by_cases hr : r ∈ rule.resources
    · have h1 : lookupA (addRule m rule) r = some (insertAll [] rule.verbs) := by
        rw [lookupA_addRule, if_pos hr, h]
        rfl
      rw [rulesFold_some r rest _ _ h1]
      simp [hr, dedupFirst, insertAll_append]
    · have h1 : lookupA (addRule m rule) r = none := by
        rw [lookupA_addRule, if_neg hr, h]
      rw [ih _ h1]
      simp [hr]

/-! ## Claim theorems -/

/-- C4: for every role, the permission extractor maps a resource exactly
when some rule mentions it, to the union of the verbs of every rule
mentioning it, duplicates removed, in first-appearance order; a role with
absent or empty rules yields the empty mapping (the function is total, so
no input fails); and the concrete spec example evaluates to
`{"pods": ["get","list","watch"]}`. -/
theorem permission_extractor_spec :
    (∀ (role : Role) (r : String),
      lookupA (extractPermissionsFromRole role) r =
        if (role.rules.getD []).any (fun rule => decide (r ∈ rule.resources)) then
          some (dedupFirst (verbsMentioning (role.rules.getD []) r))
        else none)
    ∧ extractPermissionsFromRole { rules := none } = []
    ∧ extractPermissionsFromRole { rules := some [] } = []
    ∧ (∀ l : List String, (dedupFirst l).Nodup ∧ ∀ v, v ∈ dedupFirst l ↔ v ∈ l)
    ∧ extractPermissionsFromRole
        { rules := some [⟨["get", "get", "list"], ["pods"], [""]⟩,
                         ⟨["watch"], ["pods"], [""]⟩] }
      = [("pods", ["get", "list", "watch"])] := by
  refine ⟨?_, rfl, rfl, ?_, by decide⟩
  · intro role r
    match role with
    | ⟨none⟩ => simp [extractPermissionsFromRole, lookupA, verbsMentioning]
    | ⟨some rules⟩ =>
      show lookupA (rules.foldl addRule []) r = _
      rw [rulesFold_none r rules [] rfl]
      rfl
  · intro l
    exact ⟨insertAll_nodup l [] List.nodup_nil,
      fun v => by simpa using mem_insertAll l [] v⟩

/-- C3: the subject matcher returns `false` on an empty (or absent,
modelled as empty) subject list, and returns `true` exactly when some
subject is a `User` with the username or a `Group` whose name is in the
user's groups; any other kind (e.g. `ServiceAccount`) never matches. -/
theorem subject_matcher_spec :
    ∀ (users_data : Users) (username : String) (subjects : List Subject),
      userMatchesSubjects users_data username [] = false
      ∧ (userMatchesSubjects users_data username subjects = true ↔
          ∃ s ∈ subjects, (s.kind = "User" ∧ s.name = username) ∨
            (s.kind = "Group" ∧ s.name ∈ (lookupA users_data username).getD [])) := by
  intro users_data username subjects
  refine ⟨rfl, ?_⟩
  induction subjects with
  | nil => simp [userMatchesSubjects]
  | cons s rest ih =>
    simp only [userMatchesSubjects]
    by_cases h1 : s.kind = "User" ∧ s.name = username
    · simp [h1]
    · by_cases h2 : s.kind = "Group" ∧ s.name ∈ (lookupA users_data username).getD []
      · simp [h1, h2]
      · simp [h1, h2, ih]

/-- C2: for a RoleBinding, the resolver consults only the namespaced
`roles` map under key `namespace/roleRef.name`: the result ignores the
`clusterRoles` map entirely, is unchanged under any rewrite of
`roleRef.kind`, and is empty whenever no same-named Role exists in the
binding's namespace — even when `roleRef.kind = "ClusterRole"`. -/
theorem roleBinding_lookup_ignores_roleRef_kind :
    ∀ (users_data : Users) (username : String) (role_bindings : List Binding)
      (cluster_roles cluster_roles2 roles : List (String × Role)) (b : Binding) (k : String),
      resolveAccesses users_data username [] role_bindings cluster_roles roles =
        resolveAccesses users_data username [] role_bindings cluster_roles2 roles
      ∧ resolveAccesses users_data username []
          [{ b with roleRef := { b.roleRef with kind := k } }] cluster_roles roles =
        resolveAccesses users_data username [] [b] cluster_roles roles
      ∧ (lookupA roles (b.ns.getD "default" ++ "/" ++ b.roleRef.name) = none →
          resolveAccesses users_data username [] [b] cluster_roles roles = []) := by
  intro users_data username role_bindings cluster_roles cluster_roles2 roles b k
  refine ⟨?_, ?_, ?_⟩
  · simp [resolveAccesses]
  · simp [resolveAccesses]
  · intro h
    simp [resolveAccesses, h]

/-- Witness for C2: a RoleBinding in namespace `billing` whose roleRef is
the existing ClusterRole `admin` yields no grant, because no Role
`billing/admin` exists in the namespaced map. -/
theorem roleBinding_lookup_ignores_roleRef_kind_witness :
    resolveAccesses [("alice", [])] "alice" []
      [{ subjects := [⟨"User", "alice"⟩], roleRef := ⟨"ClusterRole", "admin"⟩,
         ns := some "billing" }]
      [("admin", { rules := some [⟨["get"], ["secrets"], [""]⟩] })] [] = [] :=
  (roleBinding_lookup_ignores_roleRef_kind [("alice", [])] "alice" []
    [("admin", { rules := some [⟨["get"], ["secrets"], [""]⟩] })]
    [("admin", { rules := some [⟨["get"], ["secrets"], [""]⟩] })] []
    { subjects := [⟨"User", "alice"⟩], roleRef := ⟨"ClusterRole", "admin"⟩,
      ns := some "billing" }
    "ClusterRole").2.2 (by decide)

/-- C5: cluster-binding grants carry `namespace=""` and `is_cluster=true`;
role-binding grants carry the binding's namespace and `is_cluster=false`;
every emitted grant has a non-empty permission mapping; and a binding
whose referenced role is missing from the corresponding map contributes
nothing (the resolution still succeeds). -/
theorem access_grant_scope_spec :
    ∀ (users_data : Users) (username : String) (cluster_bindings role_bindings : List Binding)
      (cluster_roles roles : List (String × Role)) (b : Binding),
      (∀ g ∈ resolveAccesses users_data username cluster_bindings [] cluster_roles roles,
        g.ns = "" ∧ g.is_cluster = true)
      ∧ (∀ g ∈ resolveAccesses users_data username [] [b] cluster_roles roles,
          g.ns = b.ns.getD "default" ∧ g.is_cluster = false)
      ∧ (∀ g ∈ resolveAccesses users_data username cluster_bindings role_bindings
            cluster_roles roles, g.resources ≠ [])
      ∧ (lookupA cluster_roles b.roleRef.name = none →
          resolveAccesses users_data username [b] [] cluster_roles roles = []) := by
  intro users_data username cluster_bindings role_bindings cluster_roles roles b
  refine ⟨?_, ?_, ?_, ?_⟩
  · intro g hg
    simp only [resolveAccesses, List.flatMap_nil, List.append_nil, List.mem_flatMap] at hg
    obtain ⟨binding, -, hgb⟩ := hg
    split at hgb
    · split at hgb
      · split at hgb
        · simp at hgb
        · simp at hgb
          simp [hgb]
      · simp at hgb
    · simp at hgb
  · intro g hg
    simp only [resolveAccesses, List.flatMap_nil, List.nil_append,
      List.flatMap_cons, List.append_nil] at hg
    split at hg
    · split at hg
      · split at hg
        · simp at hg
        · simp at hg
          simp [hg]
      · simp at hg
    · simp at hg
  · intro g hg
    simp only [resolveAccesses, List.mem_append, List.mem_flatMap] at hg
    rcases hg with ⟨binding, -, hgb⟩ | ⟨binding, -, hgb⟩ <;>
    · split at hgb
      · split at hgb
        · simp at hgb
          obtain ⟨hne, rfl⟩ := hgb
          simpa using hne
        · simp at hgb
      · simp at hgb
  · intro h
    simp [resolveAccesses, h]

/-- Witness for C5: a concrete cluster grant has the cluster shape, and a
cluster binding whose ClusterRole is missing yields no grants. -/
theorem access_grant_scope_spec_witness :
    (({ ns := "", resources := [("pods", ["get", "list"])], is_cluster := true } :
        AccessGrant).ns = ""
      ∧ ({ ns := "", resources := [("pods", ["get", "list"])], is_cluster := true } :
          AccessGrant).is_cluster = true)
    ∧ resolveAccesses [("alice", ["dev"])] "alice"
        [{ subjects := [⟨"User", "alice"⟩], roleRef := ⟨"ClusterRole", "missing"⟩, ns := none }]
        [] [] [] = [] := by
  constructor
  · exact (access_grant_scope_spec [("alice", ["dev"])] "alice"
      [{ subjects := [⟨"Group", "dev"⟩], roleRef := ⟨"ClusterRole", "viewer"⟩, ns := none }] []
      [("viewer", { rules := some [⟨["get", "list"], ["pods"], [""]⟩] })] []
      { subjects := [], roleRef := ⟨"", ""⟩, ns := none }).1
      { ns := "", resources := [("pods", ["get", "list"])], is_cluster := true } (by decide)
  · exact (access_grant_scope_spec [("alice", ["dev"])] "alice" [] [] [] []
      { subjects := [⟨"User", "alice"⟩], roleRef := ⟨"ClusterRole", "missing"⟩,
        ns := none }).2.2.2 (by decide)

/-- C1 (code bug): the source fetches the four RBAC collections inside
`_get_user_accesses`, once per user.  For a roster of two users a single
run performs 8 list calls, not the 4 (one fetch of the four collections)
that a single-snapshot run would perform: the program re-fetches between
resolving one user and the next. -/
theorem collect_refetches_per_user :
    (collectAndLogAccesses
        { clusterRoleBindingsResult := .ok [], roleBindingsResult := .ok [],
          clusterRolesResult := .ok [], rolesResult := .ok [] }
        [("alice", []), ("bob", [])] "2026-01-01T00:00:00Z").2 = 8
    ∧ (8 : Nat) ≠ 4 := by
  exact ⟨rfl, by decide⟩

/-- The per-user result of `_get_user_accesses` does not depend on the
running call counter. -/
theorem getUserAccesses_fst (env : ApiEnv) (users_data : Users) (username : String)
    (calls : Nat) :
    (getUserAccesses env users_data username calls).1 =
      (getUserAccesses env users_data username 0).1 := rfl

/-- Unfolding of the per-user loop of `collect_and_log_accesses`. -/
theorem collect_foldl_aux (env : ApiEnv) (users_data : Users) (ts : String) :
    ∀ (users : Users) (init : List AccessLogEntry × Nat),
      (users.foldl (fun acc user =>
        let r := getUserAccesses env users_data user.1 acc.2
        (acc.1 ++ [{ username := user.1, groups := user.2, accesses := r.1, timestamp := ts }],
         r.2)) init).1
      = init.1 ++ users.map (fun user =>
          { username := user.1, groups := user.2,
            accesses := (getUserAccesses env users_data user.1 0).1, timestamp := ts }) := by
  intro users
  induction users with
  | nil => simp
  | cons u rest ih =>
    intro init
    rw [List.foldl_cons, ih]
    simp
    exact getUserAccesses_fst env users_data u.1 init.2

/-- C7 (amended): in the main collector a failed ClusterRoleBinding list
call behaves exactly like an empty list for that kind only — the run still
emits one entry per roster user, with empty accesses when no role binding
exists; in the metrics exporter, however, the two binding list calls share
one handler, so a failure of the first call also leaves the second
collection empty (and a failure of the second keeps the first). -/
theorem degraded_fetch_behavior :
    ∀ (e e2 : String) (rbR : Except String (List Binding))
      (crR rR : Except String (List (String × Role)))
      (users_data : Users) (ts : String) (cbs : List Binding),
      collectAndLogAccesses
          { clusterRoleBindingsResult := .error e, roleBindingsResult := rbR,
            clusterRolesResult := crR, rolesResult := rR } users_data ts =
        collectAndLogAccesses
          { clusterRoleBindingsResult := .ok [], roleBindingsResult := rbR,
            clusterRolesResult := crR, rolesResult := rR } users_data ts
      ∧ ((collectAndLogAccesses
            { clusterRoleBindingsResult := .error e, roleBindingsResult := rbR,
              clusterRolesResult := crR, rolesResult := rR } users_data ts).1).map
          (fun entry => entry.username) = users_data.map Prod.fst
      ∧ (∀ entry ∈ (collectAndLogAccesses
            { clusterRoleBindingsResult := .error e, roleBindingsResult := .ok [],
              clusterRolesResult := crR, rolesResult := rR } users_data ts).1,
          entry.accesses = [])
      ∧ getAllBindings (.error e) rbR = ([], [])
      ∧ getAllBindings (.ok cbs) (.error e2) = (cbs, []) := by
  intro e e2 rbR crR rR users_data ts cbs
  refine ⟨rfl, ?_, ?_, rfl, rfl⟩
  · rw [collectAndLogAccesses, collect_foldl_aux]
    simp
  · intro entry hentry
    rw [collectAndLogAccesses, collect_foldl_aux] at hentry
    simp only [List.nil_append, List.mem_map] at hentry
    obtain ⟨user, -, rfl⟩ := hentry
    rfl

/-- Witness for C7: with one roster user and only the ClusterRoleBinding
call failing (and no role bindings), the emitted entry has no accesses. -/
theorem degraded_fetch_behavior_witness :
    ({ username := "alice", groups := [], accesses := [],
       timestamp := "t" } : AccessLogEntry).accesses = [] :=
  (degraded_fetch_behavior "boom" "x" (.ok []) (.ok []) (.ok []) [("alice", [])] "t" []).2.2.1
    { username := "alice", groups := [], accesses := [], timestamp := "t" } (by decide)

/-- Counterexample to C7 as stated: in the metrics exporter, when only the
ClusterRoleBinding list call fails, `_get_all_bindings` also leaves the
role-binding collection empty (the second call is never reached), so the
empty substitution is not limited to the failing kind. -/
theorem getAllBindings_empties_both_on_first_failure :
    getAllBindings (.error "boom")
        (.ok [{ subjects := [⟨"User", "alice"⟩], roleRef := ⟨"Role", "r"⟩,
                ns := some "default" }])
      = ([], [])
    ∧ getAllBindings (.error "boom")
        (.ok [{ subjects := [⟨"User", "alice"⟩], roleRef := ⟨"Role", "r"⟩,
                ns := some "default" }])
      ≠ ([], [{ subjects := [⟨"User", "alice"⟩], roleRef := ⟨"Role", "r"⟩,
                ns := some "default" }]) := by
  exact ⟨rfl, by decide⟩

/-- A missing username anywhere in the items makes the main loader loop fail. -/
theorem buildUsersMain_none : ∀ (items : List (String × RawUserInfo))
    (users : List (String × UserRecord)),
    items.any (fun item => item.2.username.isNone) = true →
    buildUsersMain items users = none := by
  intro items
  induction items with
  | nil => intro users h; simp at h
  | cons item rest ih =>
    intro users h
    simp only [List.any_cons, Bool.or_eq_true] at h
    cases hu : item.2.username with
    | none => simp [buildUsersMain, hu]
    | some u =>
      rcases h with h | h
      · rw [hu] at h; simp at h
      · simp [buildUsersMain, hu, ih _ h]

/-- The same for the metrics-exporter loader loop. -/
theorem buildUsersMetrics_none : ∀ (items : List (String × RawUserInfo)) (users : Users),
    items.any (fun item => item.2.username.isNone) = true →
    buildUsersMetrics items users = none := by
  intro items
  induction items with
  | nil => intro users h; simp at h
  | cons item rest ih =>
    intro users h
    simp only [List.any_cons, Bool.or_eq_true] at h
    cases hu : item.2.username with
    | none => simp [buildUsersMetrics, hu]
    | some u =>
      rcases h with h | h
      · rw [hu] at h; simp at h
      · simp [buildUsersMetrics, hu, ih _ h]

/-- When every item has a username, the main loader loop succeeds. -/
theorem buildUsersMain_some : ∀ (items : List (String × RawUserInfo))
    (users : List (String × UserRecord)),
    items.any (fun item => item.2.username.isNone) = false →
    ∃ us, buildUsersMain items users = some us := by
  intro items
  induction items with
  | nil => intro users _; exact ⟨users, rfl⟩
  | cons item rest ih =>
    intro users h
    simp only [List.any_cons, Bool.or_eq_false_iff] at h
    cases hu : item.2.username with
    | none => rw [hu] at h; simp at h
    | some u =>
      obtain ⟨us, hus⟩ := ih (setA users u
        { username := u, groups := item.2.groups.getD [],
          first_name := item.2.first_name.getD "",
          last_name := item.2.last_name.getD "",
          source := item.2.source.getD "" }) h.2
      exact ⟨us, by simp [buildUsersMain, hu, hus]⟩

/-- C8 (amended): an unreadable or structurally malformed roster document
is fatal in the main collector (`sys.exit(1)`, modelled as `.error 1`),
but the metrics exporter catches the same failure and keeps running with an
*empty* user set; on a well-formed document the main loader succeeds. -/
theorem roster_load_failure_behavior :
    ∀ (input : Option RosterDoc),
      (rosterMalformed input = true →
        mainLoadUsersData input = .error 1 ∧ metricsLoadUsersData input = [])
      ∧ (rosterMalformed input = false →
          ∃ us, mainLoadUsersData input = .ok us) := by
  intro input
  obtain - | ⟨data⟩ := input
  · exact ⟨fun _ => ⟨rfl, rfl⟩, fun h => by simp [rosterMalformed] at h⟩
  · obtain - | blocks := data
    · exact ⟨fun _ => ⟨rfl, rfl⟩, fun h => by simp [rosterMalformed] at h⟩
    · obtain - | ⟨⟨internals⟩, bs⟩ := blocks
      · exact ⟨fun _ => ⟨rfl, rfl⟩, fun h => by simp [rosterMalformed] at h⟩
      · obtain - | items := internals
        · exact ⟨fun _ => ⟨rfl, rfl⟩, fun h => by simp [rosterMalformed] at h⟩
        · constructor
          · intro h
            have hany : items.any (fun item => item.2.username.isNone) = true := by
              simpa [rosterMalformed] using h
            exact ⟨by simp [mainLoadUsersData, buildUsersMain_none items [] hany],
              by simp [metricsLoadUsersData, buildUsersMetrics_none items [] hany]⟩
          · intro h
            have hany : items.any (fun item => item.2.username.isNone) = false := by
              simpa [rosterMalformed] using h
            obtain ⟨us, hus⟩ := buildUsersMain_some items [] hany
            exact ⟨us, by simp [mainLoadUsersData, hus]⟩

/-- Witness for C8 (amended): an unreadable input is fatal for the main
loader, the exporter continues with no users; a well-formed document loads. -/
theorem roster_load_failure_behavior_witness :
    (mainLoadUsersData none = .error 1 ∧ metricsLoadUsersData none = [])
    ∧ ∃ us, mainLoadUsersData (some { data := some [{ internals := some [] }] }) = .ok us :=
  ⟨(roster_load_failure_behavior none).1 rfl,
   (roster_load_failure_behavior (some { data := some [{ internals := some [] }] })).2 rfl⟩

/-- Counterexample to C8 as stated: on an unreadable roster input (`none`)
— and likewise on a document without the `data` structure — the metrics
exporter's loader returns normally with an empty user set and the process
keeps running, instead of exiting with a non-zero code. -/
theorem metrics_loader_continues_on_unreadable_input :
    metricsLoadUsersData none = [] ∧ metricsLoadUsersData (some { data := none }) = [] :=
  ⟨rfl, rfl⟩

/-- C9 (code bug): with a single log entry whose Elasticsearch send is not
acknowledged (the send failure is caught and only logged), the processing
loop still appends the marker `"1"` to the `.processed` file while nothing
was acknowledged by the sink — the line is marked processed even though
its send failed. -/
theorem sidecar_marks_processed_despite_failed_send :
    processNewEntries (fun _ => false)
        [(1, { username := "alice", groups := [], accesses := [],
               timestamp := "2026-02-03T04:05:06Z" })]
        { processedFile := [], sent := [] }
      = { processedFile := ["1"], sent := [] } := by
  rfl

/-- Lines of a position `i` of a list are members of its 1-based
enumeration at index `n + i`. -/
theorem get?_mem_enumFrom {α : Type} : ∀ (l : List α) (i n : Nat) (a : α),
    l.get? i = some a → (n + i, a) ∈ List.enumFrom n l := by
  intro l
  induction l with
  | nil => intro i n a h; simp [List.get?] at h
  | cons x rest ih =>
    intro i n a h
    cases i with
    | zero =>
      simp [List.get?] at h
      simp [List.enumFrom, h]
    | succ j =>
      simp only [List.get?] at h
      have h2 := ih j (n + 1) a h
      have h3 : n + (j + 1) = (n + 1) + j := by omega
      rw [List.enumFrom, h3]
      exact List.mem_cons_of_mem _ h2


/-- One step of the marker loop, unfolded. -/
theorem processNewEntries_cons (ackOf : Nat → Bool) (p : Nat × AccessLogEntry)
    (rest : List (Nat × AccessLogEntry)) (st : SidecarState) :
    processNewEntries ackOf (p :: rest) st =
      processNewEntries ackOf rest
        { processedFile := (processLogEntry (ackOf p.1) p.2 st).processedFile ++ [Nat.repr p.1],
          sent := (processLogEntry (ackOf p.1) p.2 st).sent } := rfl

/-- The marker file only ever receives the decimal line numbers. -/
theorem processNewEntries_processedFile (ackOf : Nat → Bool) :
    ∀ (new_entries : List (Nat × AccessLogEntry)) (st : SidecarState),
    (processNewEntries ackOf new_entries st).processedFile =
      st.processedFile ++ new_entries.map (fun p => Nat.repr p.1) := by
  intro new_entries
  induction new_entries with
  | nil => intro st; simp [processNewEntries]
  | cons p rest ih =>
    intro st
    rw [processNewEntries_cons, ih]
    unfold processLogEntry
    cases ackOf p.1 <;> simp

/-- Every collected entry gets transformed and sent when the sink
acknowledges each send. -/
theorem processNewEntries_sent :
    ∀ (new_entries : List (Nat × AccessLogEntry)) (st : SidecarState),
    (processNewEntries (fun _ => true) new_entries st).sent =
      st.sent ++ new_entries.map (fun p => transformForElasticsearch p.2) := by
  intro new_entries
  induction new_entries with
  | nil => intro st; simp [processNewEntries]
  | cons p rest ih =>
    intro st
    rw [processNewEntries_cons, ih]
    unfold processLogEntry
    simp

/-- C10: the skip check of `process_logs` compares a line's *content*
against the marker set, but the markers ever written are the decimal line
numbers; hence any non-empty line whose content differs from every such
number string (as every JSON log line does) is collected again as a new
entry — and, with an acknowledging sink, re-transformed and re-sent — on
every run. -/
theorem sidecar_skip_check_spec :
    ∀ (parse : String → Option AccessLogEntry) (markers : List Nat) (logLines : List String)
      (i : Nat) (line : String) (log_entry : AccessLogEntry)
      (new_entries : List (Nat × AccessLogEntry)) (st : SidecarState) (ackOf : Nat → Bool),
      (logLines.get? i = some line → stripWS line ≠ "" →
        stripWS line ∉ markers.map Nat.repr → parse (stripWS line) = some log_entry →
        (i + 1, log_entry) ∈ readNewEntries parse (markers.map Nat.repr) logLines)
      ∧ (processNewEntries ackOf new_entries st).processedFile =
          st.processedFile ++ new_entries.map (fun p => Nat.repr p.1)
      ∧ (processNewEntries (fun _ => true) new_entries st).sent =
          st.sent ++ new_entries.map (fun p => transformForElasticsearch p.2) := by
  intro parse markers logLines i line log_entry new_entries st ackOf
  refine ⟨?_, processNewEntries_processedFile ackOf new_entries st,
    processNewEntries_sent new_entries st⟩
  intro h1 h2 h3 h4
  unfold readNewEntries
  apply List.mem_filterMap.mpr
  refine ⟨(i + 1, line), ?_, ?_⟩
  · have h5 := get?_mem_enumFrom logLines i 1 line h1
    rwa [Nat.add_comm] at h5
  · simp [h2, h3, h4]

/-- Witness for C10: with marker file `["2"]` (written for line number 2),
the line `"x"` at index 0 is collected as new entry `(1, e)`. -/
theorem sidecar_skip_check_spec_witness :
    (1, ({ username := "u", groups := [], accesses := [], timestamp := "t" } :
        AccessLogEntry)) ∈
      readNewEntries
        (fun s => if s = "x" then
          some { username := "u", groups := [], accesses := [], timestamp := "t" }
          else none)
        ([2].map Nat.repr) ["x"] :=
  (sidecar_skip_check_spec
    (fun s => if s = "x" then
      some { username := "u", groups := [], accesses := [], timestamp := "t" }
      else none)
    [2] ["x"] 0 "x"
    { username := "u", groups := [], accesses := [], timestamp := "t" }
    [] { processedFile := [], sent := [] } (fun _ => true)).1
    (by decide) (by decide) (by decide) (by decide)

/-- `setA` preserves distinctness of the keys. -/
theorem setA_fst_nodup {α : Type} (m : List (String × α)) (k : String) (v : α)
    (h : (m.map Prod.fst).Nodup) : ((setA m k v).map Prod.fst).Nodup := by
  rw [setA_map_fst]
  by_cases hs : (lookupA m k).isSome
  · simpa [hs] using h
  · have hn : lookupA m k = none := Option.not_isSome_iff_eq_none.mp hs
    have hk : k ∉ m.map Prod.fst := (lookupA_eq_none_iff m k).mp hn
    simp [hs, List.nodup_append, h, hk]

/-- Recording a user preserves the per-key distinct-username invariant. -/
theorem recordUser_innerNodup (m : Metrics) (key username : String) (h : InnerNodup m) :
    InnerNodup (recordUser m key username) := by
  have hm1 : InnerNodup (if (lookupA m key).isSome then m else setA m key []) := by
    by_cases hs : (lookupA m key).isSome
    · simpa [hs] using h
    · rw [if_neg hs]
      intro q hq
      rcases mem_setA m key [] q hq with hin | heq
      · exact h q hin
      · rw [heq]
        simp
  unfold recordUser
  dsimp only
  generalize hM : (if (lookupA m key).isSome then m else setA m key []) = m1 at hm1 ⊢
  have husers : (((lookupA m1 key).getD []).map Prod.fst).Nodup := by
    cases hl : lookupA m1 key with
    | none => simp
    | some us => simpa using hm1 (key, us) (lookupA_mem m1 key us hl)
  intro p hp
  rcases mem_setA m1 key _ p hp with hin | heq
  · exact hm1 p hin
  · rw [heq]
    exact setA_fst_nodup _ username _ husers

/-- An invariant preserved by every step is preserved by a fold. -/
theorem foldl_inv {σ α : Type} (P : σ → Prop) (f : σ → α → σ)
    (hstep : ∀ s a, P s → P (f s a)) : ∀ (l : List α) (s : σ), P s → P (l.foldl f s) := by
  intro l
  induction l with
  | nil => exact fun s hs => hs
  | cons a rest ih =>
    intro s hs
    exact ih (f s a) (hstep s a hs)

/-- The namespace-sensitive aggregation keeps every per-key user dict free
of duplicate usernames. -/
theorem calcNS_innerNodup (users_data : Users)
    (crbR rbR : Except String (List Binding))
    (crR rR : Except String (List (String × Role)))
    (sensNs sensRes : List String) :
    InnerNodup (calculateNamespaceSensitiveMetrics users_data crbR rbR crR rR sensNs sensRes) := by
  unfold calculateNamespaceSensitiveMetrics
  dsimp only
  refine foldl_inv InnerNodup _ ?hrb _ _ (foldl_inv InnerNodup _ ?hcb _ [] ?hnil)
  case hnil => intro p hp; simp at hp
  case hcb =>
    intro metrics binding hm
    dsimp only
    split
    · exact hm
    split
    · exact hm
    split
    · exact hm
    refine foldl_inv InnerNodup _ ?_ _ _ hm
    intro m2 username hm2
    split
    · refine foldl_inv InnerNodup _ ?_ _ _ hm2
      intro m3 nsname hm3
      refine foldl_inv InnerNodup _ ?_ _ _ hm3
      intro m4 pr hm4
      split
      · refine foldl_inv InnerNodup _ ?_ _ _ hm4
        intro m5 verb hm5
        exact recordUser_innerNodup _ _ _ hm5
      · exact hm4
    · exact hm2
  case hrb =>
    intro metrics binding hm
    dsimp only
    split
    · exact hm
    split
    · exact hm
    split
    · split
      · exact hm
      refine foldl_inv InnerNodup _ ?_ _ _ hm
      intro m2 username hm2
      split
      · refine foldl_inv InnerNodup _ ?_ _ _ hm2
        intro m3 pr hm3
        split
        · refine foldl_inv InnerNodup _ ?_ _ _ hm3
          intro m4 verb hm4
          exact recordUser_innerNodup _ _ _ hm4
        · exact hm3
      · exact hm2
    · exact hm

/-- The cluster-wide aggregation keeps every per-key user dict free of
duplicate usernames. -/
theorem calcCW_innerNodup (users_data : Users)
    (crbR rbR : Except String (List Binding))
    (crR rR : Except String (List (String × Role)))
    (sensRes : List String) :
    InnerNodup (calculateClusterWideSensitiveMetrics users_data crbR rbR crR rR sensRes) := by
  unfold calculateClusterWideSensitiveMetrics
  dsimp only
  refine foldl_inv InnerNodup _ ?hcb _ [] ?hnil
  case hnil => intro p hp; simp at hp
  case hcb =>
    intro metrics binding hm
    dsimp only
    split
    · exact hm
    split
    · exact hm
    split
    · exact hm
    refine foldl_inv InnerNodup _ ?_ _ _ hm
    intro m2 username hm2
    split
    · refine foldl_inv InnerNodup _ ?_ _ _ hm2
      intro m3 pr hm3
      split
      · refine foldl_inv InnerNodup _ ?_ _ _ hm3
        intro m4 verb hm4
        exact recordUser_innerNodup _ _ _ hm4
      · exact hm3
    · exact hm2

/-- C6: every per-key user dict of both aggregations has pairwise-distinct
usernames, so the count `len(users)` exported by
`generate_prometheus_metrics` equals the number of distinct usernames
recorded under that key; concretely, when `bob` matches two different
RoleBindings both granting `get` on `secrets` in `kube-system`, the
exported metric for that key counts bob exactly once. -/
theorem aggregation_distinct_user_counts :
    ∀ (users_data : Users) (crbR rbR : Except String (List Binding))
      (crR rR : Except String (List (String × Role))) (sensNs sensRes : List String),
      (∀ p ∈ calculateNamespaceSensitiveMetrics users_data crbR rbR crR rR sensNs sensRes,
        (p.2.map Prod.fst).Nodup ∧ p.2.length = (p.2.map Prod.fst).dedup.length)
      ∧ (∀ p ∈ calculateClusterWideSensitiveMetrics users_data crbR rbR crR rR sensRes,
          (p.2.map Prod.fst).Nodup ∧ p.2.length = (p.2.map Prod.fst).dedup.length)
      ∧ generatePrometheusMetrics [("bob", [])] (.ok [])
          (.ok [{ subjects := [⟨"User", "bob"⟩], roleRef := ⟨"Role", "r1"⟩,
                  ns := some "kube-system" },
                { subjects := [⟨"User", "bob"⟩], roleRef := ⟨"Role", "r2"⟩,
                  ns := some "kube-system" }])
          (.ok [])
          (.ok [("kube-system/r1", { rules := some [⟨["get"], ["secrets"], [""]⟩] }),
                ("kube-system/r2", { rules := some [⟨["get"], ["secrets"], [""]⟩] })])
          ["kube-system", "default"] ["secrets", "pods", "nodes", "namespaces"]
        = ["k8s_namespace_sensitive_access_users_count\x7bnamespace=\"kube-system\",verb=\"get\",resource=\"secrets\"\x7d 1"] := by
  intro users_data crbR rbR crR rR sensNs sensRes
  refine ⟨?_, ?_, by decide⟩
  · intro p hp
    have hnd := calcNS_innerNodup users_data crbR rbR crR rR sensNs sensRes p hp
    exact ⟨hnd, by rw [List.dedup_eq_self.mpr hnd, List.length_map]⟩
  · intro p hp
    have hnd := calcCW_innerNodup users_data crbR rbR crR rR sensRes p hp
    exact ⟨hnd, by rw [List.dedup_eq_self.mpr hnd, List.length_map]⟩

/-- Witness for C6: in the bob scenario the key `kube-system_get_secrets`
carries the dict `{bob: 2}` — two recordings, one distinct user. -/
theorem aggregation_distinct_user_counts_witness :
    ((("kube-system_get_secrets", [("bob", 2)]) :
        String × UserCounts).2.map Prod.fst).Nodup
    ∧ (("kube-system_get_secrets", [("bob", 2)]) : String × UserCounts).2.length =
        ((("kube-system_get_secrets", [("bob", 2)]) :
          String × UserCounts).2.map Prod.fst).dedup.length :=
  (aggregation_distinct_user_counts [("bob", [])] (.ok [])
    (.ok [{ subjects := [⟨"User", "bob"⟩], roleRef := ⟨"Role", "r1"⟩,
            ns := some "kube-system" },
          { subjects := [⟨"User", "bob"⟩], roleRef := ⟨"Role", "r2"⟩,
            ns := some "kube-system" }])
    (.ok [])
    (.ok [("kube-system/r1", { rules := some [⟨["get"], ["secrets"], [""]⟩] }),
          ("kube-system/r2", { rules := some [⟨["get"], ["secrets"], [""]⟩] })])
    ["kube-system", "default"] ["secrets", "pods", "nodes", "namespaces"]).1
    ("kube-system_get_secrets", [("bob", 2)]) (by decide)
